import Mathlib

/-!
Verification of the bmw-cardata credential lifecycle engine and streaming
multiplexer against its specification.

The Go source is shallowly embedded: time is modelled in whole seconds as
`Int`; the collaborators of the `Authenticator` (session store, auth
transport) are modelled as an oracle record (`AuthWorld`) fixing the result
of each external call; every operation additionally returns the list of
external calls it performed (`Call`), so that claims counting refresh /
initiate / poll calls become statements about that trace.  Identifier
strings (client ids, UUIDs) are ASCII, so the character-wise ASCII
`asciiLower` below matches Go's `strings.ToLower` on them.
-/

namespace BmwCardata

/-- Errors travelling through the Go code: either a plain error
(`errors.New`, transport failures) or a structured `auth.AuthError`
carrying an HTTP status code, an error code, and a description. -/
inductive Err where
  | generic (msg : String)
  | auth (statusCode : Int) (errCode : String) (description : String)
  deriving Repr, DecidableEq

/-- `AuthenticatedSession` (src/unnamed/part_005, lines 154-167): the durable
credential.  `expiresAt` is an absolute timestamp in seconds; `idToken` is
optional exactly as the Go field `IdToken *string`. -/
structure AuthenticatedSession where
  clientID : String
  accessToken : String
  expiresAt : Int
  gcid : String
  idToken : Option String
  refreshToken : String
  scope : String
  tokenType : String
  deriving Repr, DecidableEq

/-- `AuthenticationSession` (src/unnamed/part_005, lines 138-147): the
transient device-flow state. -/
structure AuthenticationSession where
  clientID : String
  userCode : String
  deviceCode : String
  interval : Int
  verificationURI : String
  verificationURIComplete : String
  expiresIn : Int
  verifier : String
  deriving Repr, DecidableEq

/-- `AuthenticatedSession.IsExpired` (part_005, lines 169-175) on a non-nil
receiver: `time.Now().Add(10 * time.Second).After(a.ExpiresAt)`, i.e. the
current time plus ten seconds is STRICTLY after the expiry timestamp. -/
def AuthenticatedSession.IsExpired (a : AuthenticatedSession) (now : Int) : Bool :=
  now + 10 > a.expiresAt

/-- External calls made by the authenticator, recorded in order. -/
inductive Call where
  | storeGet
  | storeSave (saved : AuthenticatedSession)
  | refreshToken
  | initiate
  | prompt
  | poll (n : Nat)
  | sleep (seconds : Int)
  deriving Repr, DecidableEq

/-- Oracle fixing the outcome of every external interaction of one
`Authenticator` run.  `storeGet`/`storeSave` model `SessionStore.Get/Save`;
`refreshToken` models `AuthClient.RefreshToken`; `initiate` models
`AuthClient.InitiateAuthenticationSession`; `pollToken n` is the result of
the n-th `AuthClient.PollAuthToken` call (counting from 0); a result of
`.ok none` models the Go pair `(nil, nil)`.  `clientID` is the
authenticator's configured `ClientID`; `hasStore` is whether
`SessionStore != nil`; `now` is the clock at entry. -/
structure AuthWorld where
  clientID : String
  hasStore : Bool
  storeGet : Except Err (Option AuthenticatedSession)
  storeSave : Except Err Unit
  refreshToken : Except Err AuthenticatedSession
  initiate : Except Err AuthenticationSession
  pollToken : Nat → Except Err (Option AuthenticatedSession)
  now : Int

/-- `ignoreFlowNotCompleted` (part_005, lines 518-529): a structured
`auth.AuthError` whose status code is 403 (`http.StatusForbidden`) is
forgiven (result `none`), regardless of its error code; every other error
is returned unchanged. -/
def ignoreFlowNotCompleted (e : Err) : Option Err :=
  match e with
  | .auth statusCode _ _ => if statusCode = 403 then none else some e
  | _ => some e

/-- The polling loop of `NewSession` (part_005, lines 300-316).  Each
iteration first checks `time.Now().Before(expiresAt)`, then polls, then
classifies the error via `ignoreFlowNotCompleted`, then on a non-nil token
saves it (when a store is configured) and returns it, and otherwise sleeps
`delay` seconds before the next iteration.  `fuel` bounds the recursion;
`NewSession` passes enough fuel that, for `delay ≥ 1`, the deadline check
fails before the fuel runs out (see `pollLoop_expired` below), so the
fuel-exhausted arm is unreachable there. -/
def pollLoop (w : AuthWorld) (expiresAt delay : Int) :
    Nat → Int → Nat → Except Err AuthenticatedSession × List Call
  | 0, _, _ => (.error (.generic "model: fuel exhausted"), [])
  | fuel + 1, t, n =>
    if t < expiresAt then
      match w.pollToken n with
      | .error e =>
        match ignoreFlowNotCompleted e with
        | some fatal => (.error fatal, [.poll n])
        | none =>
          let rest := pollLoop w expiresAt delay fuel (t + delay) (n + 1)
          (rest.1, .poll n :: .sleep delay :: rest.2)
      | .ok none =>
        let rest := pollLoop w expiresAt delay fuel (t + delay) (n + 1)
        (rest.1, .poll n :: .sleep delay :: rest.2)
      | .ok (some tok) =>
        if w.hasStore then
          match w.storeSave with
          | .error e => (.error e, [.poll n, .storeSave tok])
          | .ok _ => (.ok tok, [.poll n, .storeSave tok])
        else
          (.ok tok, [.poll n])
    else
      (.error (.generic "authentication session expired"), [])

/-- `Authenticator.NewSession` (part_005, lines 289-318): initiate the
device flow, compute the absolute deadline `now + ExpiresIn`, default the
polling delay to 10 seconds when the server-specified interval is 0,
invoke the prompt callback once, then run the polling loop. -/
def NewSession (w : AuthWorld) : Except Err AuthenticatedSession × List Call :=
  match w.initiate with
  | .error e => (.error e, [.initiate])
  | .ok as =>
    let expiresAt := w.now + as.expiresIn
    let delay := if as.interval = 0 then 10 else as.interval
    let body := pollLoop w expiresAt delay (as.expiresIn.toNat + 1) w.now 0
    (body.1, .initiate :: .prompt :: body.2)

/-- `Authenticator.refreshSession` (part_005, lines 265-275): refresh the
token, then persist the new session; an error from either step is
returned. -/
def refreshSession (w : AuthWorld) : Except Err AuthenticatedSession × List Call :=
  match w.refreshToken with
  | .error e => (.error e, [.refreshToken])
  | .ok fresh =>
    match w.storeSave with
    | .error e => (.error e, [.refreshToken, .storeSave fresh])
    | .ok _ => (.ok fresh, [.refreshToken, .storeSave fresh])

/-- `Authenticator.getStoredSession` (part_005, lines 277-282): read from
the store when one is configured, otherwise fail without any call. -/
def getStoredSession (w : AuthWorld) :
    Except Err (Option AuthenticatedSession) × List Call :=
  if w.hasStore then (w.storeGet, [.storeGet])
  else (.error (.generic "session store not set"), [])

/-- `strings.ToLower` restricted to ASCII strings (client identifiers are
UUID strings, which are ASCII): lower-case every character. -/
def asciiLower (s : String) : String := String.mk (s.data.map Char.toLower)

/-- `Authenticator.GetSession` (part_005, lines 245-263): read the cached
session; on read error, cache miss, or a case-insensitive client-id
mismatch run the full device flow; on an expired session attempt a refresh
and fall back to the device flow when the refresh fails; otherwise return
the cached session unchanged. -/
def GetSession (w : AuthWorld) : Except Err AuthenticatedSession × List Call :=
  match getStoredSession w with
  | (.error _, tr) =>
    let fresh := NewSession w
    (fresh.1, tr ++ fresh.2)
  | (.ok none, tr) =>
    let fresh := NewSession w
    (fresh.1, tr ++ fresh.2)
  | (.ok (some s), tr) =>
    if asciiLower s.clientID ≠ asciiLower w.clientID then
      let fresh := NewSession w
      (fresh.1, tr ++ fresh.2)
    else if s.IsExpired w.now then
      match refreshSession w with
      | (.error _, tr1) =>
        let fresh := NewSession w
        (fresh.1, tr ++ tr1 ++ fresh.2)
      | (.ok s2, tr1) => (.ok s2, tr ++ tr1)
    else
      (.ok s, tr)

/-!
## Streaming side (src/stream.go)

The subscription registry `map[string]map[string]func(StreamedMessage)` is
embedded as an association list from vehicle key to an association list
from subscription id to a callback identifier (`Nat`): callbacks are
opaque in Go, so only their identity matters for routing claims.  The Go
map has unique keys; the embedding's operations preserve key uniqueness,
and the routing/invariant theorems hold for arbitrary association lists.
-/

/-- The two wildcard vehicle keys (stream.go, lines 19-22). -/
def AllVINs : String := "+"

/-- The "every topic" wildcard key (stream.go, lines 19-22). -/
def AllTopics : String := "#"

/-- Inner callback set: subscription id to callback identity. -/
abbrev CallbackSet := List (String × Nat)

/-- Registry: vehicle key to callback set. -/
abbrev Registry := List (String × CallbackSet)

/-- Go map lookup `m.subscriptions[vin]`: a missing key yields the empty
map (ranging over a nil map iterates zero times). -/
def Registry.get (r : Registry) (vin : String) : CallbackSet :=
  match r.find? (fun p => p.1 = vin) with
  | some p => p.2
  | none => []

/-- Whether a key is present in the registry (`_, ok := m[vin]`). -/
def Registry.hasKey (r : Registry) (vin : String) : Bool :=
  (r.find? (fun p => p.1 = vin)).isSome

/-- Go map insert on the inner map `m[id] = cb`: replace an existing entry
for `id`, otherwise add one. -/
def CallbackSet.insert (inner : CallbackSet) (id : String) (cb : Nat) : CallbackSet :=
  if inner.any (fun p => p.1 = id) then
    inner.map (fun p => if p.1 = id then (id, cb) else p)
  else
    inner ++ [(id, cb)]

/-- `Client.registerCallback` (stream.go, lines 178-188): create the inner
map for the vehicle key if absent, then insert the callback under the
subscription id. -/
def registerCallback (r : Registry) (vin id : String) (cb : Nat) : Registry :=
  if r.hasKey vin then
    r.map (fun p => if p.1 = vin then (p.1, p.2.insert id cb) else p)
  else
    r ++ [(vin, CallbackSet.insert [] id cb)]

/-- `Client.unregisterCallback` (stream.go, lines 190-200): no-op when the
vehicle key is absent; otherwise delete the subscription id from the inner
map, and delete the vehicle key entirely when its inner map becomes
empty. -/
def unregisterCallback (r : Registry) (vin id : String) : Registry :=
  if r.hasKey vin then
    let r2 := r.map (fun p =>
      if p.1 = vin then (p.1, p.2.filter (fun q => q.1 ≠ id)) else p)
    if (Registry.get r2 vin).isEmpty then r2.filter (fun p => p.1 ≠ vin) else r2
  else
    r

/-- One registry mutation as performed by `Subscribe` / `Unsubscribe`. -/
inductive RegOp where
  | register (vin id : String) (cb : Nat)
  | unregister (vin id : String)
  deriving Repr, DecidableEq

/-- Apply a registry mutation. -/
def applyRegOp (r : Registry) : RegOp → Registry
  | .register vin id cb => registerCallback r vin id cb
  | .unregister vin id => unregisterCallback r vin id

/-- Apply a sequence of mutations to the initially empty registry (a fresh
`Client` has a nil subscription map). -/
def applyRegOps (ops : List RegOp) : Registry :=
  ops.foldl applyRegOp []

/-- `streamingManager.getCallbacks` (stream.go, lines 348-362): the
callbacks registered under the message's vehicle id, then those under the
"every vehicle" wildcard, then those under the "every topic" wildcard. -/
def getCallbacks (r : Registry) (vin : String) : List Nat :=
  (r.get vin).map (fun p => p.2)
    ++ (r.get AllVINs).map (fun p => p.2)
    ++ (r.get AllTopics).map (fun p => p.2)

/-- The inbound-message dispatch of `handlePahoPublishReceived`
(stream.go, lines 300-309) after a successful decode of a message with
vehicle id `vin`: each selected callback is spawned as its own concurrent
task (`go callback(msg)` in the source); the returned list is the list of
spawned tasks, none of which is executed inline. -/
def dispatchSpawns (r : Registry) (vin : String) : List Nat :=
  getCallbacks r vin

/-- Whether callback `cb` is registered (under some subscription id) for
vehicle key `vin`. -/
def registeredUnder (r : Registry) (vin : String) (cb : Nat) : Bool :=
  (Registry.get r vin).any (fun p => p.2 = cb)

/-- The invariant maintained by the registry operations: outer keys are
unique (they model a Go map) and every present vehicle key maps to a
non-empty callback set. -/
def GoodRegistry (r : Registry) : Prop :=
  (r.map Prod.fst).Nodup ∧ ∀ p ∈ r, p.2 ≠ []

/-- Actions issued by the streaming manager against its collaborators. -/
inductive SAction where
  | getSession
  | unsub (topics : List String)
  | subscribe (topics : List String)
  deriving Repr, DecidableEq

/-- Oracle for one streaming-manager operation: the authenticator result
and the broker's answer to an unsubscribe call. -/
structure StreamWorld where
  session : Except Err AuthenticatedSession
  unsubResult : Except Err Unit

/-- Streaming-manager state relevant to subscription bookkeeping:
whether a live connection exists (`connectionManager != nil`) and the
installed subscription snapshot. -/
structure SMState where
  connected : Bool
  subs : Registry

/-- The MQTT topic for one account and vehicle key (stream.go, line 379):
`"{gcid}/{vin}"`. -/
def topicFor (gcid vin : String) : String := gcid ++ "/" ++ vin

/-- `streamingManager.updateSubscriptions` (stream.go, lines 364-391) on a
non-nil manager: with a live connection, fetch a session (an error aborts
with no state change), unsubscribe every topic whose vehicle key is in the
installed snapshot but not in the desired one (skipping the call entirely
when no key was removed; an unsubscribe error aborts with no state
change), then install the desired snapshot.  Without a live connection the
desired snapshot is installed directly (`removedTopics` is the loop of
stream.go lines 377-381 collecting the topics to unsubscribe: one topic
per vehicle key present in the installed snapshot but absent from the
desired one). -/
def removedTopics (st : SMState) (newSubs : Registry) (gcid : String) : List String :=
  ((st.subs.map Prod.fst).filter
    (fun vin => ¬ Registry.hasKey newSubs vin)).map (topicFor gcid)

def updateSubscriptions (w : StreamWorld) (st : SMState) (newSubs : Registry) :
    SMState × Except Err Unit × List SAction :=
  if st.connected then
    match w.session with
    | .error e => (st, .error e, [.getSession])
    | .ok s =>
      if (removedTopics st newSubs s.gcid).isEmpty then
        ({ st with subs := newSubs }, .ok (), [.getSession])
      else
        match w.unsubResult with
        | .error e =>
          (st, .error e, [.getSession, .unsub (removedTopics st newSubs s.gcid)])
        | .ok _ =>
          ({ st with subs := newSubs }, .ok (),
            [.getSession, .unsub (removedTopics st newSubs s.gcid)])
  else
    ({ st with subs := newSubs }, .ok (), [])

/-- All topics named in unsubscribe actions of an action list. -/
def unsubbedTopics (acts : List SAction) : List String :=
  acts.foldr (fun a acc => match a with | .unsub ts => ts ++ acc | _ => acc) []

/-- Whether an action list contains any subscribe action. -/
def hasSubscribeAction (acts : List SAction) : Bool :=
  acts.any (fun a => match a with | .subscribe _ => true | _ => false)

/-- `Client.StopEventStream` (stream.go, lines 238-253): load the current
manager reference; when empty, return nil immediately; otherwise swap it
to empty, cancel the manager's context and wait for it, then return nil.
The result is the new manager reference together with the returned error
(always absent). -/
def StopEventStream (current : Option SMState) : Option SMState × Option Err :=
  match current with
  | none => (none, none)
  | some _ => (none, none)

/-- Outcome of a Go function that may also crash with a runtime panic
(nil-pointer dereference). -/
inductive GoOutcome (α : Type) where
  | ok (a : α)
  | err (e : Err)
  | nilDeref
  deriving Repr, DecidableEq

/-- The fields of the `paho.Connect` packet that
`buildPahoConnectPacket` sets. -/
structure ConnectPacket where
  usernameFlag : Bool
  passwordFlag : Bool
  username : String
  password : String
  sessionExpiryInterval : Nat
  deriving Repr, DecidableEq

/-- `streamingManager.buildPahoConnectPacket` (stream.go, lines 411-424):
fetch a session (an error is returned as an error); then unconditionally
evaluate `[]byte(*session.IdToken)` — when `IdToken` is nil this is a
nil-pointer dereference, a runtime panic, not an error return.  Username
is the account id, password the identity token, and the session expiry
interval the credential's remaining lifetime in seconds (converted to
uint32). -/
def buildPahoConnectPacket (w : StreamWorld) (now : Int) : GoOutcome ConnectPacket :=
  match w.session with
  | .error e => .err e
  | .ok s =>
    match s.idToken with
    | none => .nilDeref
    | some tok =>
      .ok { usernameFlag := true
            passwordFlag := true
            username := s.gcid
            password := tok
            sessionExpiryInterval := (s.expiresAt - now).toNat % 2 ^ 32 }

/-- A concrete session fixture used to instantiate theorems: expiry and
identity token are the parameters the claims care about. -/
def mkSession (exp : Int) (idTok : Option String) : AuthenticatedSession :=
  { clientID := "abc", accessToken := "acc", expiresAt := exp, gcid := "g",
    idToken := idTok, refreshToken := "ref", scope := "s", tokenType := "bearer" }

/-- A concrete device-flow fixture: polling interval and validity window
are the parameters the claims care about. -/
def mkAuthSession (interval expiresIn : Int) : AuthenticationSession :=
  { clientID := "abc", userCode := "U", deviceCode := "D", interval := interval,
    verificationURI := "V", verificationURIComplete := "VC",
    expiresIn := expiresIn, verifier := "vf" }

/-- A concrete world holding a cached, matching, expired session whose
refresh succeeds. -/
def expiredCachedWorld : AuthWorld :=
  { clientID := "ABC", hasStore := true, storeGet := .ok (some (mkSession 50 none)),
    storeSave := .ok (), refreshToken := .ok (mkSession 4000 none),
    initiate := .ok (mkAuthSession 3 20),
    pollToken := fun _ => .ok (some (mkSession 300 none)), now := 100 }

/-- A concrete world holding a cached session with a different client id
than the authenticator's. -/
def mismatchWorld : AuthWorld :=
  { clientID := "zzz", hasStore := true, storeGet := .ok (some (mkSession 4000 none)),
    storeSave := .ok (), refreshToken := .error (.generic "unused"),
    initiate := .ok (mkAuthSession 3 20),
    pollToken := fun _ => .ok (some (mkSession 300 none)), now := 100 }

/-- A concrete world whose token endpoint answers every poll with the
authorization-pending error, so the device flow never completes. -/
def pendingWorld : AuthWorld :=
  { clientID := "abc", hasStore := false, storeGet := .ok none, storeSave := .ok (),
    refreshToken := .error (.generic "unused"), initiate := .ok (mkAuthSession 3 20),
    pollToken := fun _ => .error (Err.auth 403 "authorization_pending" "pending"),
    now := 0 }

/-- A concrete world whose token endpoint succeeds on the very first
poll. -/
def firstPollWorld : AuthWorld :=
  { clientID := "abc", hasStore := false, storeGet := .ok none, storeSave := .ok (),
    refreshToken := .error (.generic "unused"), initiate := .ok (mkAuthSession 3 20),
    pollToken := fun _ => .ok (some (mkSession 300 none)), now := 0 }

/-- A poll outcome that never ends the loop: a forgiven (status 403)
error, or the nil-token nil-error pair. -/
def PendingPoll (r : Except Err (Option AuthenticatedSession)) : Prop :=
  (∃ e, r = .error e ∧ ignoreFlowNotCompleted e = none) ∨ r = .ok none

/-- The shape of the polling loop's call trace starting at poll index `n`:
the loop either stops before polling (deadline reached), ends on a poll
(fatal error, or success without a store), ends on a poll followed by the
save of the token it obtained, or polls, sleeps exactly `delay` seconds,
and continues with the next index.  In particular every two consecutive
polls are separated by exactly one sleep of `delay` seconds, and the first
action of the loop is a poll, not a sleep. -/
inductive PollTrace (delay : Int) : Nat → List Call → Prop where
  | stop (n : Nat) : PollTrace delay n []
  | last (n : Nat) : PollTrace delay n [Call.poll n]
  | lastSave (n : Nat) (s : AuthenticatedSession) :
      PollTrace delay n [Call.poll n, Call.storeSave s]
  | step (n : Nat) (tr : List Call) : PollTrace delay (n + 1) tr →
      PollTrace delay n (Call.poll n :: Call.sleep delay :: tr)

/-!
## Helper lemmas about the polling loop trace
-/

lemma pollLoop_mem (w : AuthWorld) (exp delay : Int) :
    ∀ fuel t n, ∀ c ∈ (pollLoop w exp delay fuel t n).2,
      (∃ m, c = Call.poll m) ∨ c = Call.sleep delay ∨ ∃ s, c = Call.storeSave s := by
  intro fuel
  induction fuel with
  | zero => intro t n c hc; simp [pollLoop] at hc
  | succ f ih =>
    intro t n c hc
    unfold pollLoop at hc
    split at hc
    · split at hc
      · split at hc
        · simp at hc; subst hc; exact Or.inl ⟨_, rfl⟩
        · simp at hc
          rcases hc with h | h | h
          · exact Or.inl ⟨_, h⟩
          · exact Or.inr (Or.inl h)
          · exact ih _ _ c h
      · simp at hc
        rcases hc with h | h | h
        · exact Or.inl ⟨_, h⟩
        · exact Or.inr (Or.inl h)
        · exact ih _ _ c h
      · split at hc
        · split at hc
          · simp at hc
            rcases hc with h | h
            · exact Or.inl ⟨_, h⟩
            · exact Or.inr (Or.inr ⟨_, h⟩)
          · simp at hc
            rcases hc with h | h
            · exact Or.inl ⟨_, h⟩
            · exact Or.inr (Or.inr ⟨_, h⟩)
        · simp at hc; subst hc; exact Or.inl ⟨_, rfl⟩
    · simp at hc

lemma NewSession_mem (w : AuthWorld) :
    ∀ c ∈ (NewSession w).2, c = Call.initiate ∨ c = Call.prompt ∨
      (∃ m, c = Call.poll m) ∨ (∃ d, c = Call.sleep d) ∨ ∃ s, c = Call.storeSave s := by
  intro c hc
  unfold NewSession at hc
  split at hc
  · simp at hc; subst hc; exact Or.inl rfl
  · simp at hc
    rcases hc with h | h | h
    · exact Or.inl h
    · exact Or.inr (Or.inl h)
    · rcases pollLoop_mem w _ _ _ _ _ c h with h1 | h1 | h1
      · exact Or.inr (Or.inr (Or.inl h1))
      · exact Or.inr (Or.inr (Or.inr (Or.inl ⟨_, h1⟩)))
      · exact Or.inr (Or.inr (Or.inr (Or.inr h1)))

lemma NewSession_no_refresh (w : AuthWorld) :
    Call.refreshToken ∉ (NewSession w).2 := by
  intro hmem
  rcases NewSession_mem w _ hmem with h | h | ⟨m, h⟩ | ⟨d, h⟩ | ⟨s, h⟩ <;> simp at h

lemma NewSession_no_storeGet (w : AuthWorld) :
    Call.storeGet ∉ (NewSession w).2 := by
  intro hmem
  rcases NewSession_mem w _ hmem with h | h | ⟨m, h⟩ | ⟨d, h⟩ | ⟨s, h⟩ <;> simp at h

lemma NewSession_count_initiate (w : AuthWorld) :
    (NewSession w).2.count Call.initiate = 1 := by
  unfold NewSession
  split
  · rfl
  · rename_i as heq
    simp only [List.count_cons]
    have h0 : ((pollLoop w (w.now + as.expiresIn)
        (if as.interval = 0 then 10 else as.interval)
        (as.expiresIn.toNat + 1) w.now 0).2).count Call.initiate = 0 := by
      rw [List.count_eq_zero]
      intro hmem
      rcases pollLoop_mem w _ _ _ _ _ _ hmem with ⟨m, h⟩ | h | ⟨s, h⟩ <;> simp at h
    simp [h0]


/-- Claim C1 fails at the exact boundary: with the current time 100 and an
expiry timestamp of 110, the current time plus the 10-second margin is at
(equal to) the expiry timestamp, so the claim calls the session expired,
but `IsExpired` (a strict `After` comparison) reports it not expired. -/
theorem C1_counterexample :
    ((100 : Int) + 10 ≥ (mkSession 110 none).expiresAt) ∧
    (mkSession 110 none).IsExpired 100 = false :=
  ⟨by decide, rfl⟩

/-- Claim C1 (amended): a session is expired exactly when the current time
plus the 10-second safety margin is STRICTLY after its expiry timestamp;
and `GetSession` returns the cached session unchanged, with no refresh and
no device flow, whenever the cached session's client id matches
case-insensitively and now + 10s is strictly before `ExpiresAt`. -/
theorem C1_expiry_margin (w : AuthWorld) (s : AuthenticatedSession)
    (hstore : w.hasStore = true)
    (hget : w.storeGet = .ok (some s))
    (hid : asciiLower s.clientID = asciiLower w.clientID) :
    (s.IsExpired w.now = true ↔ w.now + 10 > s.expiresAt) ∧
    (w.now + 10 < s.expiresAt → GetSession w = (.ok s, [.storeGet])) := by
  constructor
  · simp [AuthenticatedSession.IsExpired]
  · intro hlt
    have hexp : s.IsExpired w.now = false := by
      simp only [AuthenticatedSession.IsExpired, decide_eq_false_iff_not]
      omega
    simp [GetSession, getStoredSession, hstore, hget, hid, hexp]

/-- Witness for the amended claim C1 at a concrete world: a cached session
with client id written in lower case while the authenticator's client id is
in upper case, expiring at 200 with the clock at 100, is returned
unchanged after a single store read. -/
theorem C1_expiry_margin_witness :
    GetSession
      { clientID := "ABC", hasStore := true,
        storeGet := .ok (some (mkSession 200 none)), storeSave := .ok (),
        refreshToken := .error (.generic "unused"),
        initiate := .error (.generic "unused"),
        pollToken := fun _ => .error (.generic "unused"), now := 100 } =
      (.ok (mkSession 200 none), [.storeGet]) :=
  (C1_expiry_margin _ _ rfl rfl (by decide)).2 (by decide)

/-- Claim C8: `StopEventStream` with no streaming manager installed —
before any start, and again after any previous call — returns no error and
leaves the current-manager reference empty. -/
theorem C8_stop_without_manager :
    StopEventStream (none : Option SMState) = (none, none) ∧
    ∀ cur : Option SMState,
      (StopEventStream cur).1 = none ∧
      StopEventStream (StopEventStream cur).1 = (none, none) := by
  refine ⟨rfl, fun cur => ?_⟩
  cases cur <;> exact ⟨rfl, rfl⟩

/-- Claim C10: whenever the authenticator yields a session whose optional
identity token is absent, `buildPahoConnectPacket` dereferences the nil
pointer and panics rather than returning an error: a non-nil `IdToken` is
an unstated precondition of every connection attempt. -/
theorem C10_nil_id_token_crashes (w : StreamWorld) (now : Int)
    (s : AuthenticatedSession)
    (hsess : w.session = .ok s) (hnil : s.idToken = none) :
    buildPahoConnectPacket w now = .nilDeref := by
  simp [buildPahoConnectPacket, hsess, hnil]

/-- Witness for claim C10: a concrete session without an identity token
makes the connect-packet builder crash. -/
theorem C10_nil_id_token_crashes_witness :
    buildPahoConnectPacket
      { session := .ok (mkSession 200 none), unsubResult := .ok () } 0 = .nilDeref :=
  C10_nil_id_token_crashes _ 0 _ rfl rfl


/-- Claim C2 fails on the error code: an authorization error with HTTP
status 403 whose error code is NOT authorization-pending is still
forgiven — `ignoreFlowNotCompleted` never inspects the error code — and at
a concrete world the polling loop continues past such an error and
completes, instead of aborting as the claim requires. -/
theorem C2_counterexample :
    ignoreFlowNotCompleted (Err.auth 403 "access_denied" "user denied") = none ∧
    "access_denied" ≠ "authorization_pending" ∧
    (NewSession
      { clientID := "abc", hasStore := false, storeGet := .ok none,
        storeSave := .ok (), refreshToken := .error (.generic "unused"),
        initiate := .ok (mkAuthSession 3 20),
        pollToken := fun n =>
          if n = 0 then .error (Err.auth 403 "access_denied" "user denied")
          else .ok (some (mkSession 300 none)),
        now := 0 }).1 = .ok (mkSession 300 none) :=
  ⟨rfl, by decide, rfl⟩

/-- Claim C2 (amended): during the polling loop, a poll error is forgiven
(the loop continues) if and only if it is a structured authorization error
with HTTP status 403, whatever its error code; every other error is fatal
and aborts the flow with that very error. -/
theorem C2_forgive_iff_status_403 (e : Err) :
    (ignoreFlowNotCompleted e = none ↔ ∃ c d, e = Err.auth 403 c d) ∧
    ((∀ c d, e ≠ Err.auth 403 c d) → ignoreFlowNotCompleted e = some e) ∧
    (∀ (w : AuthWorld) (exp delay : Int) (fuel : Nat) (t : Int) (n : Nat),
      t < exp → w.pollToken n = .error e →
      ((∃ c d, e = Err.auth 403 c d) →
        pollLoop w exp delay (fuel + 1) t n =
          ((pollLoop w exp delay fuel (t + delay) (n + 1)).1,
            Call.poll n :: Call.sleep delay ::
              (pollLoop w exp delay fuel (t + delay) (n + 1)).2)) ∧
      ((∀ c d, e ≠ Err.auth 403 c d) →
        pollLoop w exp delay (fuel + 1) t n = (.error e, [Call.poll n]))) := by
  refine ⟨?_, ?_, ?_⟩
  · cases e with
    | generic m => simp [ignoreFlowNotCompleted]
    | auth st c d =>
      by_cases h : st = 403
      · subst h; simp [ignoreFlowNotCompleted]
      · simp [ignoreFlowNotCompleted, h]
  · intro hne
    cases e with
    | generic m => simp [ignoreFlowNotCompleted]
    | auth st c d =>
      have h : st ≠ 403 := fun hst => hne c d (by rw [hst])
      simp [ignoreFlowNotCompleted, h]
  · intro w exp delay fuel t n ht hpoll
    constructor
    · rintro ⟨c, d, rfl⟩
      have hig : ignoreFlowNotCompleted (Err.auth 403 c d) = none := by
        simp [ignoreFlowNotCompleted]
      simp only [pollLoop]
      simp [ht, hpoll, hig]
    · intro hne
      have hig : ignoreFlowNotCompleted e = some e := by
        cases e with
        | generic m => simp [ignoreFlowNotCompleted]
        | auth st c d =>
          have h : st ≠ 403 := fun hst => hne c d (by rw [hst])
          simp [ignoreFlowNotCompleted, h]
      simp only [pollLoop]
      simp [ht, hpoll, hig]

/-- Witness for the amended claim C2: a concrete 400-status error aborts
the polling loop at once with that error. -/
theorem C2_forgive_iff_status_403_witness :
    pollLoop
      { clientID := "abc", hasStore := false, storeGet := .ok none,
        storeSave := .ok (), refreshToken := .error (.generic "unused"),
        initiate := .ok (mkAuthSession 3 20),
        pollToken := fun _ => .error (Err.auth 400 "bad" "bad request"),
        now := 0 } 20 3 (4 + 1) 0 0 =
      (.error (Err.auth 400 "bad" "bad request"), [Call.poll 0]) :=
  ((C2_forgive_iff_status_403 (Err.auth 400 "bad" "bad request")).2.2
      _ 20 3 4 0 0 (by decide) rfl).2 (by intro c d h; simp at h)


/-- Claim C3: when the cached session matches the configured client id but
is expired, exactly one refresh attempt is made; a successful attempt is
persisted and returned; and when the refresh attempt — `refreshSession`,
the token call together with the persist of its result — fails with any
error, also when the token call succeeded but saving the new session
failed, `GetSession` runs the full device flow (exactly one initiate,
then polling) instead of surfacing that error. -/
theorem C3_refresh_once_then_fallback (w : AuthWorld) (s : AuthenticatedSession)
    (hstore : w.hasStore = true)
    (hget : w.storeGet = .ok (some s))
    (hid : asciiLower s.clientID = asciiLower w.clientID)
    (hexp : s.IsExpired w.now = true) :
    (GetSession w).2.count Call.refreshToken = 1 ∧
    (∀ s2, w.refreshToken = .ok s2 → w.storeSave = .ok () →
      GetSession w = (.ok s2, [.storeGet, .refreshToken, .storeSave s2])) ∧
    (∀ e, (refreshSession w).1 = .error e →
      (GetSession w).1 = (NewSession w).1 ∧
      (GetSession w).2 = Call.storeGet :: ((refreshSession w).2 ++ (NewSession w).2) ∧
      (GetSession w).2.count Call.initiate = 1) := by
  have hcount0 : (NewSession w).2.count Call.refreshToken = 0 :=
    List.count_eq_zero.mpr (NewSession_no_refresh w)
  cases hrt : w.refreshToken with
  | error e0 =>
    have hrs : refreshSession w = (.error e0, [Call.refreshToken]) := by
      unfold refreshSession
      rw [hrt]
    have hred : GetSession w =
        ((NewSession w).1, Call.storeGet :: Call.refreshToken :: (NewSession w).2) := by
      unfold GetSession getStoredSession refreshSession
      simp [hstore, hget, hid, hexp, hrt]
    refine ⟨?_, ?_, ?_⟩
    · rw [hred]; simp [List.count_cons, hcount0]
    · intro s2 h2; simp at h2
    · intro e he
      refine ⟨by rw [hred], ?_, ?_⟩
      · rw [hred, hrs]
        rfl
      · rw [hred]
        simp [List.count_cons, NewSession_count_initiate w]
  | ok s2 =>
    cases hsv : w.storeSave with
    | error e2 =>
      have hrs : refreshSession w =
          (.error e2, [Call.refreshToken, Call.storeSave s2]) := by
        unfold refreshSession
        rw [hrt, hsv]
      have hred : GetSession w =
          ((NewSession w).1,
            Call.storeGet :: Call.refreshToken :: Call.storeSave s2 :: (NewSession w).2) := by
        unfold GetSession getStoredSession refreshSession
        simp [hstore, hget, hid, hexp, hrt, hsv]
      refine ⟨?_, ?_, ?_⟩
      · rw [hred]; simp [List.count_cons, hcount0]
      · intro s3 h3 h4; simp at h4
      · intro e he
        refine ⟨by rw [hred], ?_, ?_⟩
        · rw [hred, hrs]
          rfl
        · rw [hred]
          simp [List.count_cons, NewSession_count_initiate w]
    | ok u =>
      cases u
      have hrs : refreshSession w =
          (.ok s2, [Call.refreshToken, Call.storeSave s2]) := by
        unfold refreshSession
        rw [hrt, hsv]
      have hred : GetSession w =
          (.ok s2, [Call.storeGet, Call.refreshToken, Call.storeSave s2]) := by
        unfold GetSession getStoredSession refreshSession
        simp [hstore, hget, hid, hexp, hrt, hsv]
      refine ⟨?_, ?_, ?_⟩
      · rw [hred]; simp [List.count_cons]
      · intro s3 h3 _
        injection h3 with h3
        subst h3
        exact hred
      · intro e he
        rw [hrs] at he
        simp at he

/-- Witness for claim C3 at a concrete world: the expired cached session
is replaced by the refreshed one, which is saved and returned. -/
theorem C3_refresh_once_then_fallback_witness :
    GetSession expiredCachedWorld =
      (.ok (mkSession 4000 none),
        [.storeGet, .refreshToken, .storeSave (mkSession 4000 none)]) :=
  (C3_refresh_once_then_fallback expiredCachedWorld (mkSession 50 none)
      rfl rfl (by decide) rfl).2.1 (mkSession 4000 none) rfl rfl

/-- Claim C5: a store read error (including an unset store), an empty
cache, or a case-insensitive client-id mismatch each make `GetSession` run
the full device flow — exactly one initiate — with no refresh call. -/
theorem C5_cache_miss_runs_device_flow (w : AuthWorld)
    (h : w.hasStore = false ∨
      (w.hasStore = true ∧ ∃ e, w.storeGet = .error e) ∨
      (w.hasStore = true ∧ w.storeGet = .ok none) ∨
      (w.hasStore = true ∧ ∃ s, w.storeGet = .ok (some s) ∧
        asciiLower s.clientID ≠ asciiLower w.clientID)) :
    (GetSession w).1 = (NewSession w).1 ∧
    (GetSession w).2 = (getStoredSession w).2 ++ (NewSession w).2 ∧
    Call.refreshToken ∉ (GetSession w).2 ∧
    (GetSession w).2.count Call.initiate = 1 := by
  have hcnt : (NewSession w).2.count Call.initiate = 1 := NewSession_count_initiate w
  have hred : GetSession w = ((NewSession w).1, (getStoredSession w).2 ++ (NewSession w).2) := by
    rcases h with h1 | ⟨h1, e, h2⟩ | ⟨h1, h2⟩ | ⟨h1, s, h2, h3⟩
    · unfold GetSession getStoredSession
      simp [h1]
    · unfold GetSession getStoredSession
      simp [h1, h2]
    · unfold GetSession getStoredSession
      simp [h1, h2]
    · unfold GetSession getStoredSession
      simp [h1, h2, h3]
  refine ⟨by rw [hred], by rw [hred], ?_, ?_⟩
  · rw [hred]
    intro hmem
    simp only [List.mem_append] at hmem
    rcases hmem with hmem | hmem
    · unfold getStoredSession at hmem
      by_cases hs : w.hasStore <;> simp [hs] at hmem
    · exact NewSession_no_refresh w hmem
  · rw [hred]
    simp only [List.count_append, hcnt]
    have : (getStoredSession w).2.count Call.initiate = 0 := by
      unfold getStoredSession
      by_cases hs : w.hasStore <;> simp [hs]
    rw [this]

/-- Witness for claim C5 at a concrete world with a client-id mismatch:
the device flow runs once, with no refresh call. -/
theorem C5_cache_miss_runs_device_flow_witness :
    (GetSession mismatchWorld).1 = (NewSession mismatchWorld).1 ∧
    (GetSession mismatchWorld).2 =
      (getStoredSession mismatchWorld).2 ++ (NewSession mismatchWorld).2 ∧
    Call.refreshToken ∉ (GetSession mismatchWorld).2 ∧
    (GetSession mismatchWorld).2.count Call.initiate = 1 :=
  C5_cache_miss_runs_device_flow mismatchWorld
    (Or.inr (Or.inr (Or.inr ⟨rfl, mkSession 4000 none, rfl, by decide⟩)))


lemma pollLoop_shape (w : AuthWorld) (exp delay : Int) :
    ∀ fuel t n, PollTrace delay n (pollLoop w exp delay fuel t n).2 := by
  intro fuel
  induction fuel with
  | zero => intro t n; exact PollTrace.stop n
  | succ f ih =>
    intro t n
    simp only [pollLoop]
    split
    · split
      · split
        · exact PollTrace.last n
        · exact PollTrace.step n _ (ih _ _)
      · exact PollTrace.step n _ (ih _ _)
      · split
        · split
          · exact PollTrace.lastSave n _
          · exact PollTrace.lastSave n _
        · exact PollTrace.last n
    · exact PollTrace.stop n

lemma pollLoop_expired (w : AuthWorld) (exp delay : Int) (hd : 1 ≤ delay)
    (hpend : ∀ m, PendingPoll (w.pollToken m)) :
    ∀ fuel t n, (exp - t).toNat < fuel →
      (pollLoop w exp delay fuel t n).1 =
        .error (.generic "authentication session expired") := by
  intro fuel
  induction fuel with
  | zero => intro t n h; omega
  | succ f ih =>
    intro t n h
    by_cases ht : t < exp
    · rcases hpend n with ⟨e, he, hig⟩ | hok
      · simp only [pollLoop]
        simp only [if_pos ht, he, hig]
        exact ih (t + delay) (n + 1) (by omega)
      · simp only [pollLoop]
        simp only [if_pos ht, hok]
        exact ih (t + delay) (n + 1) (by omega)
    · simp [pollLoop, ht]


/-- Claim C4 fails on the ordering within an iteration: at a concrete
world whose first poll succeeds, the token endpoint is called immediately
after the prompt with no preceding sleep — neither the 3-second interval
nor the 10-second default — so an iteration polls first and sleeps after,
not the other way round. -/
theorem C4_counterexample :
    NewSession firstPollWorld =
      (.ok (mkSession 300 none), [Call.initiate, Call.prompt, Call.poll 0]) ∧
    Call.sleep 3 ∉ [Call.initiate, Call.prompt, Call.poll 0] ∧
    Call.sleep 10 ∉ [Call.initiate, Call.prompt, Call.poll 0] :=
  ⟨rfl, by decide, by decide⟩

/-- Claim C4 (amended): after invoking the prompt callback exactly once,
each iteration of the polling loop calls the token endpoint and then
sleeps for the server-specified interval (10 seconds when the server
specifies none) before the next iteration — consecutive polls are
separated by exactly one such sleep, and no sleep precedes the first poll;
the loop terminates with an error, returning no session, if `ExpiresIn`
seconds from issuance elapse before a successful token response. -/
theorem C4_poll_then_sleep (w : AuthWorld) (as : AuthenticationSession)
    (hinit : w.initiate = .ok as) :
    ((NewSession w).2.count Call.prompt = 1) ∧
    (∃ body, (NewSession w).2 = Call.initiate :: Call.prompt :: body ∧
      PollTrace (if as.interval = 0 then 10 else as.interval) 0 body) ∧
    (0 ≤ as.interval → (∀ m, PendingPoll (w.pollToken m)) →
      (NewSession w).1 = .error (.generic "authentication session expired")) := by
  have hred : NewSession w =
      ((pollLoop w (w.now + as.expiresIn) (if as.interval = 0 then 10 else as.interval)
          (as.expiresIn.toNat + 1) w.now 0).1,
        Call.initiate :: Call.prompt ::
          (pollLoop w (w.now + as.expiresIn) (if as.interval = 0 then 10 else as.interval)
            (as.expiresIn.toNat + 1) w.now 0).2) := by
    unfold NewSession
    simp [hinit]
  refine ⟨?_, ?_, ?_⟩
  · rw [hred]
    simp only [List.count_cons]
    have h0 : ((pollLoop w (w.now + as.expiresIn)
        (if as.interval = 0 then 10 else as.interval)
        (as.expiresIn.toNat + 1) w.now 0).2).count Call.prompt = 0 := by
      rw [List.count_eq_zero]
      intro hmem
      rcases pollLoop_mem w _ _ _ _ _ _ hmem with ⟨m, h⟩ | h | ⟨s, h⟩ <;> simp at h
    simp [h0]
  · refine ⟨_, by rw [hred], pollLoop_shape w _ _ _ _ _⟩
  · intro hint hpend
    rw [hred]
    have hd : (1 : Int) ≤ if as.interval = 0 then 10 else as.interval := by
      by_cases h0 : as.interval = 0
      · simp [h0]
      · simp only [h0, if_false]
        omega
    exact pollLoop_expired w _ _ hd hpend _ _ _ (by omega)

/-- Witness for the amended claim C4: at a concrete world whose polls are
all answered with the authorization-pending error, the flow ends with the
authentication-session-expired error. -/
theorem C4_poll_then_sleep_witness :
    (NewSession pendingWorld).1 = .error (.generic "authentication session expired") :=
  (C4_poll_then_sleep pendingWorld (mkAuthSession 3 20) rfl).2.2 (by decide)
    (fun m => Or.inl ⟨Err.auth 403 "authorization_pending" "pending", rfl, rfl⟩)


lemma hasKey_iff_mem (r : Registry) (vin : String) :
    Registry.hasKey r vin = true ↔ vin ∈ r.map Prod.fst := by
  simp only [Registry.hasKey, List.find?_isSome, List.mem_map, decide_eq_true_eq]

/-- Claim C6: the callbacks dispatched for a successfully decoded message
with vehicle id `vin` are exactly those registered under `vin`, under the
"every vehicle" wildcard, or under the "every topic" wildcard; a callback
registered under none of those three keys is never dispatched.  Each
dispatched callback is spawned as its own concurrent task (a `go`
statement in the source), so the dispatched set is the list of spawned
tasks. -/
theorem C6_dispatch_union (r : Registry) (vin : String) (cb : Nat) :
    (cb ∈ dispatchSpawns r vin ↔
      (registeredUnder r vin cb || registeredUnder r AllVINs cb ||
        registeredUnder r AllTopics cb) = true) ∧
    ((registeredUnder r vin cb = false ∧ registeredUnder r AllVINs cb = false ∧
        registeredUnder r AllTopics cb = false) → cb ∉ dispatchSpawns r vin) := by
  have hiff : cb ∈ dispatchSpawns r vin ↔
      (registeredUnder r vin cb || registeredUnder r AllVINs cb ||
        registeredUnder r AllTopics cb) = true := by
    simp only [dispatchSpawns, getCallbacks, registeredUnder, List.mem_append,
      List.mem_map, List.any_eq_true, decide_eq_true_eq, Bool.or_eq_true]
  refine ⟨hiff, ?_⟩
  rintro ⟨h1, h2, h3⟩ hmem
  have := hiff.mp hmem
  rw [h1, h2, h3] at this
  simp at this

/-- Witness for claim C6: with callback 7 registered for vehicle V1 and
callback 8 registered only for V2, a message for V1 is dispatched to 7 and
not to 8. -/
theorem C6_dispatch_union_witness :
    7 ∈ dispatchSpawns [("V1", [("id1", 7)]), ("V2", [("id2", 8)])] "V1" ∧
    8 ∉ dispatchSpawns [("V1", [("id1", 7)]), ("V2", [("id2", 8)])] "V1" :=
  ⟨(C6_dispatch_union [("V1", [("id1", 7)]), ("V2", [("id2", 8)])] "V1" 7).1.mpr
      (by decide),
   (C6_dispatch_union [("V1", [("id1", 7)]), ("V2", [("id2", 8)])] "V1" 8).2
      ⟨by decide, by decide, by decide⟩⟩


lemma removedTopics_mem (st : SMState) (newSubs : Registry) (g : String) (t : String) :
    t ∈ removedTopics st newSubs g ↔
      ∃ vin, Registry.hasKey st.subs vin = true ∧
        Registry.hasKey newSubs vin = false ∧ t = topicFor g vin := by
  unfold removedTopics
  constructor
  · intro h
    rcases List.mem_map.mp h with ⟨vin, hvf, rfl⟩
    rcases List.mem_filter.mp hvf with ⟨hvm, hnk⟩
    refine ⟨vin, (hasKey_iff_mem st.subs vin).mpr hvm, ?_, rfl⟩
    simpa using hnk
  · rintro ⟨vin, hv, hnk, rfl⟩
    exact List.mem_map.mpr ⟨vin,
      List.mem_filter.mpr ⟨(hasKey_iff_mem st.subs vin).mp hv, by simp [hnk]⟩, rfl⟩

/-- Claim C7: with a live connection and a successful session fetch and
unsubscribe call, `updateSubscriptions` issues explicit unsubscribes for
exactly the topics `gcid/key` whose key is present in the installed
snapshot but absent from the desired one, issues no subscribe, and
installs the desired snapshot. -/
theorem C7_unsubscribe_removed_only (w : StreamWorld) (st : SMState)
    (newSubs : Registry) (s : AuthenticatedSession)
    (hconn : st.connected = true)
    (hsess : w.session = .ok s)
    (hunsub : w.unsubResult = .ok ()) :
    ((updateSubscriptions w st newSubs).1.subs = newSubs) ∧
    ((updateSubscriptions w st newSubs).2.1 = .ok ()) ∧
    hasSubscribeAction (updateSubscriptions w st newSubs).2.2 = false ∧
    (∀ t, t ∈ unsubbedTopics (updateSubscriptions w st newSubs).2.2 ↔
      ∃ vin, Registry.hasKey st.subs vin = true ∧
        Registry.hasKey newSubs vin = false ∧ t = topicFor s.gcid vin) := by
  by_cases hemp : (removedTopics st newSubs s.gcid).isEmpty
  · have hred : updateSubscriptions w st newSubs =
        ({ st with subs := newSubs }, .ok (), [.getSession]) := by
      unfold updateSubscriptions
      rw [hconn, hsess]
      simp [hemp]
    rw [hred]
    refine ⟨rfl, rfl, rfl, ?_⟩
    intro t
    constructor
    · intro h; simp [unsubbedTopics] at h
    · intro h
      have h2 := (removedTopics_mem st newSubs s.gcid t).mpr h
      rw [List.isEmpty_iff.mp hemp] at h2
      simp at h2
  · have hred : updateSubscriptions w st newSubs =
        ({ st with subs := newSubs }, .ok (),
          [.getSession, .unsub (removedTopics st newSubs s.gcid)]) := by
      unfold updateSubscriptions
      rw [hconn, hsess, hunsub]
      simp [hemp]
    rw [hred]
    refine ⟨rfl, rfl, rfl, ?_⟩
    intro t
    have h3 : unsubbedTopics [SAction.getSession,
        SAction.unsub (removedTopics st newSubs s.gcid)] =
        removedTopics st newSubs s.gcid := by
      simp [unsubbedTopics]
    rw [h3]
    exact removedTopics_mem st newSubs s.gcid t

/-- Witness for claim C7: with keys V1 and V2 installed and only V2
desired, exactly the topic g/V1 is unsubscribed and the new snapshot is
installed. -/
theorem C7_unsubscribe_removed_only_witness :
    (updateSubscriptions { session := .ok (mkSession 300 none), unsubResult := .ok () }
        { connected := true, subs := [("V1", [("a", 1)]), ("V2", [("b", 2)])] }
        [("V2", [("b", 2)])]).1.subs = [("V2", [("b", 2)])] ∧
    "g/V1" ∈ unsubbedTopics
      (updateSubscriptions { session := .ok (mkSession 300 none), unsubResult := .ok () }
        { connected := true, subs := [("V1", [("a", 1)]), ("V2", [("b", 2)])] }
        [("V2", [("b", 2)])]).2.2 := by
  have h := C7_unsubscribe_removed_only
    { session := .ok (mkSession 300 none), unsubResult := .ok () }
    { connected := true, subs := [("V1", [("a", 1)]), ("V2", [("b", 2)])] }
    [("V2", [("b", 2)])] (mkSession 300 none) rfl rfl rfl
  exact ⟨h.1, (h.2.2.2 "g/V1").mpr ⟨"V1", by decide, by decide, by decide⟩⟩


lemma insert_ne_nil (inner : CallbackSet) (id : String) (cb : Nat) :
    CallbackSet.insert inner id cb ≠ [] := by
  unfold CallbackSet.insert
  split
  · rename_i hany
    cases inner with
    | nil => simp at hany
    | cons a as => simp
  · simp

lemma register_keys (r : Registry) (vin id : String) (cb : Nat)
    (hk : Registry.hasKey r vin = true) :
    (registerCallback r vin id cb).map Prod.fst = r.map Prod.fst := by
  unfold registerCallback
  rw [hk]
  simp only [if_true, List.map_map]
  apply List.map_congr_left
  intro p hp
  by_cases h1 : p.1 = vin <;> simp [h1]

lemma register_good (r : Registry) (vin id : String) (cb : Nat)
    (h : GoodRegistry r) : GoodRegistry (registerCallback r vin id cb) := by
  obtain ⟨hnd, hne⟩ := h
  by_cases hk : Registry.hasKey r vin
  · constructor
    · rw [register_keys r vin id cb hk]; exact hnd
    · intro p hp
      unfold registerCallback at hp
      rw [hk] at hp
      simp only [if_true] at hp
      rcases List.mem_map.mp hp with ⟨q, hq, rfl⟩
      by_cases h1 : q.1 = vin
      · simp only [h1, if_true]
        exact insert_ne_nil _ _ _
      · simp only [h1, if_false]
        exact hne q hq
  · have hk2 : Registry.hasKey r vin = false := by
      rw [Bool.not_eq_true] at hk; exact hk
    constructor
    · unfold registerCallback
      rw [hk2]
      simp only [Bool.false_eq_true, if_false, List.map_append, List.map_cons,
        List.map_nil]
      rw [List.nodup_append]
      refine ⟨hnd, by simp, ?_⟩
      intro a ha hb
      simp at hb
      rw [hb] at ha
      have h2 : Registry.hasKey r vin = true := (hasKey_iff_mem r vin).mpr ha
      rw [hk2] at h2
      cases h2
    · intro p hp
      unfold registerCallback at hp
      rw [hk2] at hp
      simp only [Bool.false_eq_true, if_false] at hp
      rcases List.mem_append.mp hp with h1 | h1
      · exact hne p h1
      · simp at h1
        subst h1
        show CallbackSet.insert [] id cb ≠ []
        exact insert_ne_nil [] id cb


lemma find?_map_keep (r : Registry) (f : String × CallbackSet → String × CallbackSet)
    (hfk : ∀ p, (f p).1 = p.1) (vin : String)
    (hnd : (r.map Prod.fst).Nodup) (q : String × CallbackSet)
    (hq : q ∈ r) (hqv : q.1 = vin) :
    (r.map f).find? (fun p => p.1 = vin) = some (f q) := by
  induction r with
  | nil => cases hq
  | cons a as ih =>
    simp only [List.map_cons, List.nodup_cons] at hnd
    rcases List.mem_cons.mp hq with rfl | hq2
    · have hpa : ((f q).1 = vin) := by rw [hfk q, hqv]
      rw [List.map_cons, List.find?_cons_of_pos _ (by simpa using hpa)]
    · have hane : a.1 ≠ vin := by
        intro hh
        apply hnd.1
        rw [hh, ← hqv]
        exact List.mem_map.mpr ⟨q, hq2, rfl⟩
      have hfa : ¬ ((f a).1 = vin) := by rw [hfk a]; exact hane
      rw [List.map_cons, List.find?_cons_of_neg _ (by simpa using hfa)]
      exact ih hnd.2 hq2

lemma unregister_good (r : Registry) (vin id : String)
    (h : GoodRegistry r) : GoodRegistry (unregisterCallback r vin id) := by
  classical
  obtain ⟨hnd, hne⟩ := h
  by_cases hk : Registry.hasKey r vin
  case neg =>
    have hk2 : Registry.hasKey r vin = false := by rw [Bool.not_eq_true] at hk; exact hk
    unfold unregisterCallback
    rw [hk2]
    simp only [Bool.false_eq_true, if_false]
    exact ⟨hnd, hne⟩
  case pos =>
    have hfk : ∀ p : String × CallbackSet,
        ((fun p => if p.1 = vin then (p.1, p.2.filter (fun q => q.1 ≠ id)) else p) p).1
          = p.1 := by
      intro p
      by_cases h1 : p.1 = vin
      · simp [h1]
      · simp [h1]
    have hkeys : (r.map (fun p =>
        if p.1 = vin then (p.1, p.2.filter (fun q => q.1 ≠ id)) else p)).map Prod.fst
          = r.map Prod.fst := by
      rw [List.map_map]
      apply List.map_congr_left
      intro p hp
      exact hfk p
    unfold unregisterCallback
    rw [hk]
    simp only [if_true]
    split
    · constructor
      · have hsub := (List.filter_sublist
          (l := r.map (fun p =>
            if p.1 = vin then (p.1, p.2.filter (fun q => q.1 ≠ id)) else p))
          (p := fun p => p.1 ≠ vin)).map Prod.fst
        rw [hkeys] at hsub
        exact hnd.sublist hsub
      · intro p hp
        have hp2 := List.mem_of_mem_filter hp
        have hpv : ¬(p.1 = vin) := by simpa using List.of_mem_filter hp
        rcases List.mem_map.mp hp2 with ⟨q, hq, rfl⟩
        by_cases h1 : q.1 = vin
        · exact absurd ((hfk q).trans h1) hpv
        · simp only [if_neg h1]
          exact hne q hq
    · rename_i hcond
      constructor
      · rw [hkeys]
        exact hnd
      · intro p hp
        rcases List.mem_map.mp hp with ⟨q, hq, rfl⟩
        by_cases h1 : q.1 = vin
        · simp only [if_pos h1]
          intro hnil
          apply hcond
          have hfind := find?_map_keep r
            (fun p => if p.1 = vin then (p.1, p.2.filter (fun q => q.1 ≠ id)) else p)
            hfk vin hnd q hq h1
          have hget : Registry.get (r.map (fun p =>
              if p.1 = vin then (p.1, p.2.filter (fun q => q.1 ≠ id)) else p)) vin =
              q.2.filter (fun x => x.1 ≠ id) := by
            unfold Registry.get
            rw [hfind]
            simp [h1]
          rw [List.isEmpty_iff, hget]
          simpa using hnil
        · simp only [if_neg h1]
          exact hne q hq

lemma applyRegOps_good (ops : List RegOp) : GoodRegistry (applyRegOps ops) := by
  have hstep : ∀ (l : List RegOp) (r : Registry), GoodRegistry r →
      GoodRegistry (l.foldl applyRegOp r) := by
    intro l
    induction l with
    | nil => intro r h; exact h
    | cons o os ih =>
      intro r h
      apply ih
      cases o with
      | register vin id cb => exact register_good r vin id cb h
      | unregister vin id => exact unregister_good r vin id h
  exact hstep ops [] ⟨by simp, by simp⟩

/-- Claim C9: after any sequence of register and unregister operations
starting from the empty registry, every vehicle key present in the
registry maps to a non-empty callback set — removing the last callback of
a key removes the key itself. -/
theorem C9_no_empty_entries (ops : List RegOp) (vin : String) (inner : CallbackSet)
    (hmem : (vin, inner) ∈ applyRegOps ops) : inner ≠ [] :=
  (applyRegOps_good ops).2 (vin, inner) hmem

/-- Witness for claim C9: registering one callback and unregistering an
unrelated id leaves the key with its non-empty callback set. -/
theorem C9_no_empty_entries_witness : ([("id1", 7)] : CallbackSet) ≠ [] :=
  C9_no_empty_entries
    [RegOp.register "V" "id1" 7, RegOp.unregister "V" "other"] "V" [("id1", 7)]
    (by decide)

end BmwCardata
